import Mathlib

/-!
Verification of the `visonic_decoder` protocol decoder.

Bytes are modelled as natural numbers (wire bytes are < 256; theorems that
need the bound take it as a hypothesis).  Python byte-string slicing
`msg[a:b]` (with clamping and negative indices) is modelled by `pySlice`.
Fallible Python code (uncaught exceptions) is modelled with `Except String`;
the error strings name the Python exception raised at that point.
-/

namespace Visonic

/-- Clamped index resolution of a Python slice endpoint `i` for a sequence of
length `n`: negative indices count from the end and everything is clamped
into `[0, n]`. -/
def sliceIdx (n : Nat) (i : Int) : Nat :=
  if i < 0 then ((n : Int) + i).toNat else min i.toNat n

/-- Python slice `l[a:b]`. -/
def pySlice (l : List α) (a b : Int) : List α :=
  (l.drop (sliceIdx l.length a)).take (sliceIdx l.length b - sliceIdx l.length a)

/-- Python slice `l[a:]`. -/
def pySliceFrom (l : List α) (a : Int) : List α :=
  l.drop (sliceIdx l.length a)

/-- `helpers.b2i` with `big_endian=True`: `int.from_bytes(byte, "big")`.
The empty byte string converts to `0`. -/
def b2i (l : List Nat) : Nat :=
  l.foldl (fun acc b => acc * 256 + b) 0

/-- `helpers.b2i` with `big_endian=False`: `int.from_bytes(byte, "little")`. -/
def b2i_le (l : List Nat) : Nat :=
  l.foldr (fun b acc => acc * 256 + b) 0

/-- `helpers.calculate_message_checksum`: sum all bytes, then
`0xFF - (sum % 0xFF)`, normalizing a result of `0xFF` to `0x00`.
The source returns the value as a single byte (`to_bytes(1, "big")`);
we return the byte value itself. -/
def calculate_message_checksum (msg : List Nat) : Nat :=
  let checksum := 0xFF - (msg.sum % 0xFF)
  if checksum = 0xFF then 0x00 else checksum

/-- Lower-case hex digit of `n % 16`, as in Python's `bytes.hex`. -/
def hexChar (n : Nat) : Char :=
  match n % 16 with
  | 0 => '0' | 1 => '1' | 2 => '2' | 3 => '3' | 4 => '4'
  | 5 => '5' | 6 => '6' | 7 => '7' | 8 => '8' | 9 => '9'
  | 10 => 'a' | 11 => 'b' | 12 => 'c' | 13 => 'd' | 14 => 'e'
  | _ => 'f'

/-- The two hex characters of one byte. -/
def hexDigits (b : Nat) : List Char :=
  [hexChar (b / 16), hexChar b]

/-- Python `bytes.hex()` (no separator). -/
def bytesHex (l : List Nat) : String :=
  ⟨(l.map hexDigits).flatten⟩

/-- Python `bytes.hex(" ")` (space-separated byte pairs). -/
def bytesHexSp (l : List Nat) : String :=
  ⟨(List.intersperse [' '] (l.map hexDigits)).flatten⟩

/-- `B0MessageDecoder.validate_b0_message`, as a function of the raw frame.
The structural decoder fills the fields this validator reads uniformly for
every message shape: `message_start_marker = msg[:1].hex()`,
`end_data_marker = msg[-3:-2].hex()`, `checksum = msg[-2:-1].hex()`,
`message_end_marker = msg[-1:].hex()` and `message = msg[1:-1]`.  The
validator compares hex renderings and checks
`calculate_message_checksum(message[:-1]).hex() == checksum`. -/
def validate_b0_message (msg : List Nat) : Bool :=
  let message := pySlice msg 1 (-1)
  bytesHex (pySlice msg 0 1) == "0d"
    && bytesHex (pySlice msg (-3) (-2)) == "43"
    && bytesHex [calculate_message_checksum (pySlice message 0 (-1))]
        == bytesHex (pySlice msg (-2) (-1))
    && bytesHex (pySliceFrom msg (-1)) == "0a"

/-- The right-hand side of claim C1 exactly as stated: start marker `0x0D`,
end-of-data marker `0x43`, end marker `0x0A`, and the checksum of the frame
minus (only) the trailing checksum byte and end marker equals the embedded
checksum byte. -/
def c1_claim_rhs (msg : List Nat) : Bool :=
  msg[0]? == some 0x0D
    && msg[msg.length - 3]? == some 0x43
    && msg[msg.length - 2]? == some (calculate_message_checksum (pySlice msg 0 (-2)))
    && msg[msg.length - 1]? == some 0x0A

/-- The amended right-hand side: the checksum input additionally drops the
leading start-marker byte, i.e. it is computed over `msg[1:-2]` (which still
includes the `0x43` end-of-data marker). -/
def c1_amended_rhs (msg : List Nat) : Prop :=
  msg[0]? = some 0x0D
    ∧ msg[msg.length - 3]? = some 0x43
    ∧ msg[msg.length - 2]? = some (calculate_message_checksum (pySlice msg 1 (-2)))
    ∧ msg[msg.length - 1]? = some 0x0A

end Visonic

namespace Visonic

/-- Payload of one data chunk: either a flat byte string (`bytearray`) or a
list of fixed-width byte cells (the result of `chunk_bytearray`). -/
inductive ChunkData where
  | bytes (b : List Nat)
  | cells (c : List (List Nat))
deriving DecidableEq, Repr

/-- Hex rendering of one data chunk: a single hex string for `bytearray`
payloads, a list of per-cell hex strings for cell payloads. -/
inductive ChunkHex where
  | str (s : String)
  | list (l : List String)
deriving DecidableEq, Repr

/-- The extra fields of `B042DataChunk` (command `0x42` paged-lookup chunks). -/
structure B042Fields where
  max_entries : Nat
  entries : Nat
  start_entry : Nat
  chunk_size : Nat
deriving DecidableEq, Repr

/-- `B0DataChunk` (with `B042DataChunk` represented by `sub42 := some _`).
`length` is an `Int` because the source computes it by subtraction
(`b2i(msg[8:9]) - 3`, `- 14`), which can go negative in Python. -/
@[ext]
structure B0DataChunk where
  data_type : Nat
  index : Nat
  length : Int
  data : ChunkData
  hex : ChunkHex
  sub42 : Option B042Fields
deriving DecidableEq, Repr

/-- `B0StructuredResponseMessage`. -/
structure B0StructuredResponseMessage where
  message_start_marker : String
  b0_message : Bool
  message_type : Nat
  command : String
  length_all_data : Nat
  has_params : Bool
  params : String
  page : Nat
  data : List B0DataChunk
  message_counter : Nat
  end_data_marker : String
  checksum : String
  message_end_marker : String
  message : List Nat
deriving DecidableEq, Repr

/-- The `data` field of `B0StructuredRequestMessage`: the ADD/REMOVE path
stores either a `B0DataChunk` or a `bytearray` in it. -/
inductive RequestData where
  | chunk (c : B0DataChunk)
  | bytes (b : List Nat)
deriving DecidableEq, Repr

/-- `B0StructuredRequestMessage`.  `data_type` is an `Int` because the bare
REQUEST path stores `-1`; `data_length` can be `length_all_data - 4 < 0`. -/
structure B0StructuredRequestMessage where
  message_start_marker : String
  b0_message : Bool
  message_type : Nat
  command : String
  length_all_data : Nat
  has_params : Bool
  param_size : Nat
  data_type : Int
  start_of_data_pos : Nat
  data_length : Int
  data : RequestData
  hex : Option String
  end_data_marker : String
  checksum : String
  message_end_marker : String
  message : List Nat
deriving DecidableEq, Repr

/-- `helpers.chunk_bytearray` for a positive chunk size: split into
consecutive slices of `size` bytes (the last may be shorter).  The source's
`range(0, len(data), size)` raises for `size = 0`; all structural-decoder
call sites pass `max(1, _)` or guard zero explicitly, and the one unguarded
call site (`decode_b0_message`'s request formatting) uses the fallible
`chunk_bytearray` below.  Structured as structural recursion on explicit
fuel so that concrete frames evaluate inside the kernel. -/
def chunk_list_fuel : Nat → List α → Nat → List (List α)
  | 0, _, _ => []
  | _ + 1, [], _ => []
  | _ + 1, _ :: _, 0 => []
  | fuel + 1, a :: rest, n + 1 =>
      (a :: rest).take (n + 1) :: chunk_list_fuel fuel ((a :: rest).drop (n + 1)) (n + 1)

/-- `helpers.chunk_bytearray` for a positive chunk size (see the comment
above).  Each iteration consumes at least one element, so `data.length` is
enough fuel. -/
def chunk_list (data : List α) (size : Nat) : List (List α) :=
  chunk_list_fuel data.length data size

/-- `helpers.chunk_bytearray` including the `ValueError` that Python's
`range` raises on a zero step. -/
def chunk_bytearray (data : List Nat) (size : Nat) : Except String (List (List Nat)) :=
  if size = 0 then .error "ValueError: range() arg 3 must not be zero"
  else .ok (chunk_list data size)

/-- The chunk-collection loop of the default RESPONSE layout:
`i = 5; while i <= length_all_data - 1: chunk_data_length = b2i(msg[i+3:i+4]);
chunks.append(msg[i+1:i+4+chunk_data_length]); i += 4 + chunk_data_length`. -/
def collect_chunks_fuel (msg : List Nat) (bound : Nat) : Nat → Nat → List (List Nat)
  | 0, _ => []
  | fuel + 1, i =>
    if i < bound then
      let cdl := b2i (pySlice msg (i + 3) (i + 4))
      pySlice msg (i + 1) (i + 4 + cdl) :: collect_chunks_fuel msg bound fuel (i + 4 + cdl)
    else []

/-- The chunk-collection loop, started at `i = 5`.  Every iteration advances
`i` by at least 4, so `bound` iterations of fuel always suffice. -/
def collect_chunks (msg : List Nat) (bound : Nat) (i : Nat) : List (List Nat) :=
  collect_chunks_fuel msg bound bound i

end Visonic

namespace Visonic

/-- `B0MessageDecoder.decode_b0_message_structure`.  The Python function
returns a request structure for message types ADD/REMOVE (0/4) and
REQUEST (1), a response structure for PAGED_RESPONSE/RESPONSE/UNKNOWN
(2/3/5), and falls off the end (returning `None`) for any other
message-type byte; we model that implicit `None` as `none`.
All byte offsets are copied from the source.  (The `0x42` branch also
computes an unused `data_size_bytes = max(1, int(data_type/8))`, which has
no effect and is omitted here.) -/
def decode_b0_message_structure (msg : List Nat) :
    Option (B0StructuredRequestMessage ⊕ B0StructuredResponseMessage) :=
  let message_start_marker := bytesHex (pySlice msg 0 1)
  let b0_message := bytesHex (pySlice msg 1 2) == "b0"
  let message_type := b2i (pySlice msg 2 3)
  let command := bytesHex (pySlice msg 3 4)
  let length_all_data := b2i (pySlice msg 4 5)
  let message_counter := b2i (pySlice msg (-4) (-3))
  let end_data_marker := bytesHex (pySlice msg (-3) (-2))
  let checksum := bytesHex (pySlice msg (-2) (-1))
  let message_end_marker := bytesHex (pySliceFrom msg (-1))
  let message := pySlice msg 1 (-1)
  let mkReq := fun (has_params : Bool) (param_size : Nat) (data_type : Int)
      (start_of_data_pos : Nat) (data_length : Int) (data : RequestData)
      (hex : Option String) =>
    some (Sum.inl
      { message_start_marker := message_start_marker
        b0_message := b0_message
        message_type := message_type
        command := command
        length_all_data := length_all_data
        has_params := has_params
        param_size := param_size
        data_type := data_type
        start_of_data_pos := start_of_data_pos
        data_length := data_length
        data := data
        hex := hex
        end_data_marker := end_data_marker
        checksum := checksum
        message_end_marker := message_end_marker
        message := message })
  let mkResp := fun (has_params : Bool) (params : String) (page : Nat)
      (struct_chunks : List B0DataChunk) =>
    some (Sum.inr
      { message_start_marker := message_start_marker
        b0_message := b0_message
        message_type := message_type
        command := command
        length_all_data := length_all_data
        has_params := has_params
        params := params
        page := page
        data := struct_chunks
        message_counter := message_counter
        end_data_marker := end_data_marker
        checksum := checksum
        message_end_marker := message_end_marker
        message := message })
  if message_type = 0 ∨ message_type = 4 then
    if pySlice msg 10 11 == [0xFF] then
      let data_length := b2i (pySlice msg 11 12)
      let data := pySlice msg 12 (12 + (data_length : Int))
      mkReq false 0 (b2i (pySlice msg 9 10) : Int) 12 (data_length : Int)
        (.bytes data) (some (bytesHexSp data))
    else
      let chunk_length := b2i (pySlice msg 11 12)
      let cdata := pySlice msg 12 (12 + (chunk_length : Int))
      mkReq false 0 (b2i (pySlice msg 9 10) : Int) 12
        ((length_all_data : Int) - 4)
        (.chunk ⟨b2i (pySlice msg 9 10), b2i (pySlice msg 10 11),
          (chunk_length : Int), .bytes cdata, .str (bytesHexSp cdata), none⟩)
        none
  else if message_type = 1 then
    if length_all_data > 1 then
      let data_length := b2i (pySlice msg 9 10)
      let data := pySlice msg 10 (10 + (data_length : Int))
      mkReq true (b2i (pySlice msg 5 6)) (b2i (pySlice msg 7 8) : Int) 10
        (data_length : Int) (.bytes data) (some (bytesHexSp data))
    else
      let data_length := b2i (pySlice msg 4 5)
      let data := pySlice msg 5 (5 + (data_length : Int))
      mkReq false 0 (-1) 5 (data_length : Int) (.bytes data)
        (some (bytesHexSp data))
  else if message_type = 2 ∨ message_type = 3 ∨ message_type = 5 then
    let page := b2i (pySlice msg 5 6)
    if b2i (pySlice msg 6 7) = 0 then
      let data_length := b2i (pySlice msg 11 12)
      let data := pySlice msg 12 (12 + (data_length : Int))
      mkResp false "" page [⟨b2i (pySlice msg 6 7), 255, (data_length : Int),
        .bytes data, .str (bytesHexSp data), none⟩]
    else if command == "0f" then
      let data_type := b2i (pySlice msg 6 7)
      let data_length : Int := (b2i (pySlice msg 4 5) : Int) - 4
      let data_size_bytes := max 1 (data_type / 8)
      let data := chunk_list (pySlice msg 8 (8 + data_length)) data_size_bytes
      mkResp false "" page [⟨data_type, 255, data_length, .cells data,
        .list (data.map bytesHex), none⟩]
    else if command == "35" then
      let params := bytesHexSp (pySlice msg 9 11)
      let data_type := b2i (pySlice msg 11 12)
      let data_length : Int := (b2i (pySlice msg 8 9) : Int) - 3
      let data_size_bytes := max 1 (data_type / 8)
      let data := chunk_list (pySlice msg 12 (12 + data_length)) data_size_bytes
      mkResp true params page [⟨data_type, 255, data_length, .cells data,
        .list (data.map bytesHex), none⟩]
    else if command == "42" then
      let data_length : Int := (b2i (pySlice msg 8 9) : Int) - 14
      let params := bytesHexSp (pySlice msg 9 11)
      let max_entries := b2i_le (pySlice msg 11 13)
      let data_chunk_size := b2i_le (pySlice msg 13 15) / 8
      let data_type := b2i (pySlice msg 17 18)
      let start_entry := b2i_le (pySlice msg 19 21)
      let entries := b2i_le (pySlice msg 21 23)
      let data := if data_chunk_size = 0 then []
        else chunk_list (pySlice msg 23 (23 + data_length)) data_chunk_size
      mkResp true params page [⟨data_type, 255, data_length, .cells data,
        .list (data.map bytesHex),
        some ⟨max_entries, entries, start_entry, data_chunk_size⟩⟩]
    else
      let chunksRaw := collect_chunks msg length_all_data 5
      let struct_chunks := chunksRaw.map (fun chunk =>
        let data_type := b2i (pySlice chunk 0 1)
        let data_size_bytes := max 1 (data_type / 8)
        let data := chunk_list (pySliceFrom chunk 3) data_size_bytes
        (⟨data_type, b2i (pySlice chunk 1 2), (b2i (pySlice chunk 2 3) : Int),
          .cells data, .list (data.map bytesHexSp), none⟩ : B0DataChunk))
      mkResp false "" page struct_chunks
  else
    none

end Visonic

namespace Visonic

/-- The paged-message store `PagedMessageManager.pages`: an insertion-ordered
dict from page id `f"{command}_{page_no}"` to the stored structural response.
Insertion order is modelled by the list order; overwriting an existing key
keeps its position (as a Python dict does). -/
abbrev PagedState := List (String × B0StructuredResponseMessage)

/-- Python `page_id.split("_")` on the underlying character list: splitting
on every underscore, keeping empty segments (`"".split("_") == [""]`). -/
def splitUnderscoreChars : List Char → List (List Char)
  | [] => [[]]
  | c :: cs =>
    if c = '_' then [] :: splitUnderscoreChars cs
    else
      match splitUnderscoreChars cs with
      | [] => [[c]]
      | h :: t => (c :: h) :: t

/-- Python `page_id.split("_")`. -/
def splitUnderscore (s : String) : List String :=
  (splitUnderscoreChars s.data).map (fun cs => ⟨cs⟩)

/-- `page_id.split("_")[0]` (a Python `split` always has a first element). -/
def pageIdCommand (page_id : String) : String :=
  (splitUnderscore page_id).headD ""

/-- `page_id.split("_")[1]`; `none` models the `IndexError` raised when the
id contains no underscore (never the case for ids built by `add_page`). -/
def pageIdSuffix (page_id : String) : Option String :=
  (splitUnderscore page_id)[1]?

/-- Dict insert with Python semantics: overwrite in place, else append. -/
def dictSet (pages : PagedState) (k : String) (v : B0StructuredResponseMessage) :
    PagedState :=
  if pages.any (fun p => p.1 == k) then
    pages.map (fun p => if p.1 == k then (k, v) else p)
  else pages ++ [(k, v)]

/-- `PagedMessageManager.has_active_paged_response`: the store is non-empty
and holds a page keyed `f"{command}_1"`. -/
def has_active_paged_response (pages : PagedState) (command : String) : Bool :=
  !pages.isEmpty && ((pages.find? (fun p => p.1 == command ++ "_1")).isSome)

/-- `PagedMessageManager.add_page`: a page numbered 1 resets the whole store
first (`self.reset()`), then the page is stored under `f"{command}_{page_no}"`. -/
def add_page (pages : PagedState) (command : String) (page_no : Nat)
    (message : B0StructuredResponseMessage) : PagedState :=
  let pages := if page_no == 1 then [] else pages
  dictSet pages (command ++ "_" ++ toString page_no) message

/-- `PagedMessageManager.get_highest_page_for_command`.  The source collects
the page-number suffixes of this command's page ids, returns 0 when there are
none, sorts them, and then evaluates `int(page_ids[:-1])` — `int()` applied
to the *list slice* `page_ids[:-1]`, which raises `TypeError` for every
non-empty `page_ids` (sorting never changes that). -/
def get_highest_page_for_command (pages : PagedState) (command : String) :
    Except String Nat :=
  let keyed := pages.filter (fun p => pageIdCommand p.1 == command)
  match keyed.mapM (fun p => pageIdSuffix p.1) with
  | none => .error "IndexError: list index out of range"
  | some page_ids =>
    if page_ids.isEmpty then .ok 0
    else .error "TypeError: int() argument must be a string, a bytes-like object or a real number, not 'list'"

/-- `PagedMessageManager.get_pages`: the stored responses for `command`,
re-keyed by page-number suffix; iteration keeps insertion order, so we keep
the value list.  (Suffixes of distinct ids for one command are distinct, so
the re-keying never merges entries.) -/
def get_pages (pages : PagedState) (command : String) :
    List B0StructuredResponseMessage :=
  (pages.filter (fun p => pageIdCommand p.1 == command)).map (fun p => p.2)

/-- `chunks[idx].data.extend(chunk.data)`.  `bytearray.extend` of a list of
byte strings raises `TypeError`.  `list.extend(bytearray)` would append raw
integers among the byte-string cells — a heterogeneous list this model
cannot represent; it is flagged as an error here and never exercised by any
theorem below. -/
def extendChunkData : ChunkData → ChunkData → Except String ChunkData
  | .bytes a, .bytes b => .ok (.bytes (a ++ b))
  | .cells a, .cells b => .ok (.cells (a ++ b))
  | .bytes _, .cells _ => .error "TypeError: 'bytes' object cannot be interpreted as an integer"
  | .cells _, .bytes _ => .error "unmodelled: list.extend(bytearray) builds a heterogeneous list"

/-- `chunks[idx].hex.extend(chunk.hex)`.  A `str` hex rendering has no
`extend` (`AttributeError`); `list.extend(str)` appends the string's
characters one by one. -/
def extendChunkHex : ChunkHex → ChunkHex → Except String ChunkHex
  | .str _, _ => .error "AttributeError: 'str' object has no attribute 'extend'"
  | .list a, .list b => .ok (.list (a ++ b))
  | .list a, .str s => .ok (.list (a ++ s.toList.map (fun c => c.toString)))

/-- One merge of `add_chunk_data_to_exisitng_chunk`: extend the payload,
extend the hex rendering, and add the lengths, keeping every other field of
the existing chunk. -/
def extendChunk (e c : B0DataChunk) : Except String B0DataChunk := do
  let d ← extendChunkData e.data c.data
  let h ← extendChunkHex e.hex c.hex
  .ok { e with data := d, hex := h, length := e.length + c.length }

/-- The loop of `add_chunk_data_to_exisitng_chunk`: walk the accumulated
chunks in order and extend every one whose `index` matches (an exception
raised while extending aborts the walk, as in Python). -/
def extend_matching : List B0DataChunk → B0DataChunk → Except String (List B0DataChunk)
  | [], _ => .ok []
  | e :: rest, c =>
    if e.index == c.index then do
      let e' ← extendChunk e c
      let rest' ← extend_matching rest c
      .ok (e' :: rest')
    else do
      let rest' ← extend_matching rest c
      .ok (e :: rest')

/-- One iteration of the chunk loop in `rebuild_paged_data_chunks`: if a
chunk with the same `index` is already present (`have_partial_chunk`), the
matching chunks are extended in place; otherwise the chunk is appended. -/
def rebuild_step (chunks : List B0DataChunk) (c : B0DataChunk) :
    Except String (List B0DataChunk) :=
  if chunks.any (fun e => e.index == c.index) then
    extend_matching chunks c
  else
    .ok (chunks ++ [c])

/-- `B0MessageDecoder.rebuild_paged_data_chunks`: fold every chunk of every
message (messages in dict order, i.e. page-arrival order) through
`rebuild_step`, starting from an empty chunk list. -/
def rebuild_paged_data_chunks (messages : List (List B0DataChunk)) :
    Except String (List B0DataChunk) :=
  messages.foldlM (fun acc m => m.foldlM rebuild_step acc) []

/-- `B0MessageDecoder.create_message_from_paged_messages`: append the final
message to the paged dict (`paged_messages.update({message.page: message})`
adds a fresh key, as the stored keys are strings and `message.page` an int),
rebuild all chunks, and return the final message carrying the merged data. -/
def create_message_from_paged_messages (message : B0StructuredResponseMessage)
    (paged_messages : List B0StructuredResponseMessage) :
    Except String B0StructuredResponseMessage := do
  let all_data ← rebuild_paged_data_chunks
    ((paged_messages ++ [message]).map (fun m => m.data))
  .ok { message with data := all_data }

end Visonic

namespace Visonic

/-- `const.DataTypes` as a partial name lookup: `some` for members,
`none` models the `ValueError` of `DataTypes(code)` on anything else. -/
def DataTypes_name : Nat → Option String
  | 0 => some "UNKNOWN"
  | 1 => some "BITS"
  | 4 => some "NIBBLE"
  | 8 => some "BYTES"
  | 16 => some "WORD16"
  | 24 => some "WORD24"
  | 32 => some "WORD32"
  | 40 => some "WORD40"
  | 48 => some "WORD48"
  | 56 => some "WORD56"
  | 64 => some "WORD64"
  | 72 => some "WORD72"
  | 80 => some "WORD80"
  | 88 => some "WORD88"
  | 96 => some "WORD96"
  | 104 => some "WORD104"
  | 112 => some "WORD112"
  | _ => none

/-- `const.IndexName` as a partial name lookup: `some` for members 0–20 and
255, `none` models the `ValueError` of `IndexName(code)` on anything else. -/
def IndexName_name : Nat → Option String
  | 0 => some "REPEATERS"
  | 1 => some "X10"
  | 2 => some "SIRENS"
  | 3 => some "ZONES"
  | 4 => some "KEYPADS"
  | 5 => some "KEYFOBS"
  | 6 => some "USERCODES"
  | 7 => some "CAMERASA"
  | 8 => some "UNK8"
  | 9 => some "POWERLINK"
  | 10 => some "TAGS"
  | 11 => some "CAMERASB"
  | 12 => some "PANEL"
  | 13 => some "UNK13"
  | 14 => some "PARTITIONS"
  | 15 => some "UNK15"
  | 16 => some "UNK16"
  | 17 => some "EVENTS"
  | 18 => some "UKN18"
  | 19 => some "UNK19"
  | 20 => some "UNK20"
  | 255 => some "NA"
  | _ => none

/-- `helpers.get_lookup_value(IndexName, n)`: the member name, or the
`TEXT_UNKNOWN` sentinel `"UNKNOWN"` when `IndexName(n)` raises `ValueError`
(the `isinstance(lookup_enum, Enum)` test is false for the enum class
itself, so the function returns `TEXT_UNKNOWN`). -/
def get_lookup_value_IndexName (n : Nat) : String :=
  (IndexName_name n).getD "UNKNOWN"

/-- `helpers.get_lookup_value(MessageType, n)`: member name or `"UNKNOWN"`. -/
def MessageType_name : Nat → String
  | 0 => "ADD"
  | 1 => "REQUEST"
  | 2 => "PAGED_RESPONSE"
  | 3 => "RESPONSE"
  | 4 => "REMOVE"
  | 5 => "UNKNOWN"
  | _ => "UNKNOWN"

/-- `helpers.get_lookup_value(B0Command, command)`: member name of the
`B0Command` string enum, or `"UNKNOWN"`. -/
def B0Command_name (command : String) : String :=
  if command == "01" then "ZONE01"
  else if command == "02" then "ZONE02"
  else if command == "04" then "ZONE04"
  else if command == "05" then "ZONE05"
  else if command == "06" then "INVALID_COMMAND"
  else if command == "07" then "ZONE07"
  else if command == "0f" then "UNKNOWN0F"
  else if command == "11" then "ZONES11"
  else if command == "12" then "ZONES12"
  else if command == "13" then "ZONES13"
  else if command == "14" then "ZONES14"
  else if command == "15" then "ZONES15"
  else if command == "16" then "ZONES16"
  else if command == "17" then "REQUEST_LIST"
  else if command == "18" then "SENSOR_DETECTION"
  else if command == "19" then "BYPASSES"
  else if command == "1d" then "ENROLLED"
  else if command == "1f" then "DEVICE_TYPES"
  else if command == "21" then "ASSIGNED_NAMES"
  else if command == "22" then "SYSTEM_CAPABILITIES"
  else if command == "24" then "PANEL_STATUS"
  else if command == "27" then "CAMERA_SOMETING"
  else if command == "2a" then "STANDARD_EVENT_LOG"
  else if command == "2b" then "UNKNOWN2B"
  else if command == "2d" then "ASSIGNED_ZONE_TYPES"
  else if command == "35" then "SETTINGS"
  else if command == "36" then "LEGACY_EVENT_LOG"
  else if command == "37" then "SOME_EVENT37"
  else if command == "3a" then "ZONE3A"
  else if command == "3d" then "ZONE_TEMPS"
  else if command == "40" then "ZONE40"
  else if command == "42" then "SETTINGS2"
  else if command == "43" then "ZONE43"
  else if command == "49" then "ZONE49"
  else if command == "4b" then "ZONE_LAST_EVENT"
  else if command == "4e" then "ZONE4E"
  else if command == "4f" then "ZONE4F"
  else if command == "50" then "ZONE50"
  else if command == "51" then "ASK_ME"
  else if command == "52" then "DEVICE_COUNTS"
  else if command == "53" then "CAMERA_SOMETHING"
  else if command == "59" then "GSM_STATUS"
  else if command == "64" then "PANEL_SOFTWARE_VERSION"
  else if command == "69" then "PANEL_EPROM_AND_SW_VERSION"
  else if command == "6a" then "KEEP_ALIVE"
  else if command == "75" then "SOME_LOG"
  else if command == "77" then "ZONE_BRIGHTNESS"
  else "UNKNOWN"

/-- One entry of the generic decoder's output: the dict
`{"type": _, "idx": _, "idx_name": _, "len": _, "data": _}`. -/
structure GenChunk where
  type : String
  idx : Nat
  idx_name : String
  len : Int
  data : ChunkHex
deriving DecidableEq, Repr

/-- The decoded payload of a `B0Response` (`B0DecodedData` and friends).
`raw` is the undecoded chunk list a PAGED_RESPONSE carries; `unmodelled`
stands for the output of the specific per-command decoders this development
does not model further (no claim depends on their values). -/
inductive B0ResponseData where
  | raw (chunks : List B0DataChunk)
  | gen (length : Nat) (chunks : List GenChunk)
  | caps (m : List (String × Nat))
  | temps (index : String) (m : List (Nat × ℚ))
  | invalid (s : String)
  | unmodelled (command : String)
deriving DecidableEq, Repr

/-- `B0MessageDecoder.b0_gen_data_decoder`.  For each chunk it renders the
payload as hex and looks the data type and index up *directly* in the
`DataTypes`/`IndexName` enums — `DataTypes(chunk.data_type)` /
`IndexName(chunk.index)` raise an uncaught `ValueError` for codes outside
the enums (the data type is evaluated first). -/
def b0_gen_data_decoder (message : B0StructuredResponseMessage) :
    Except String B0ResponseData :=
  ((message.data.mapM (fun (chunk : B0DataChunk) =>
    let hex_data : ChunkHex := match chunk.data with
      | .cells ds => .list (ds.map bytesHexSp)
      | .bytes d => .str (bytesHexSp d)
    match DataTypes_name chunk.data_type with
    | none => .error ("ValueError: " ++ toString chunk.data_type
        ++ " is not a valid DataTypes")
    | some tname =>
      match IndexName_name chunk.index with
      | none => .error ("ValueError: " ++ toString chunk.index
          ++ " is not a valid IndexName")
      | some iname =>
        .ok (⟨tname, chunk.index, iname, chunk.length, hex_data⟩ : GenChunk))
    : Except String (List GenChunk))).map
    (fun cs => .gen message.length_all_data cs)

/-- `B0MessageDecoder.b0_22_data_decoder` (panel capabilities).  Iterates
the first chunk's cells; for each position it evaluates
`IndexName(idx).name` inside a `try` whose handler catches only `KeyError`,
so the `ValueError` raised for an index beyond the enum propagates and the
`Unknown-` fallback line is dead code.  Known names map to the cell's
2-byte little-endian value.  (`message.data[0]` raises `IndexError` on an
empty chunk list; iterating a `bytearray` payload feeds an `int` to `b2i`,
raising `TypeError`.) -/
def b0_22_data_decoder (message : B0StructuredResponseMessage) :
    Except String B0ResponseData :=
  match message.data.head? with
  | none => .error "IndexError: list index out of range"
  | some chunk =>
    match chunk.data with
    | .bytes [] => .ok (.caps [])
    | .bytes (_ :: _) => .error "TypeError: cannot convert 'int' object to bytes"
    | .cells ds =>
      ((ds.enum.mapM (fun (p : Nat × List Nat) =>
        match IndexName_name p.1 with
        | some nm => .ok (nm, b2i_le p.2)
        | none => .error ("ValueError: " ++ toString p.1
            ++ " is not a valid IndexName"))
        : Except String (List (String × Nat)))).map (fun pairs => .caps pairs)

/-- The zone-temperature map built by `b0_3d_data_decoder`'s loop: for each
0-based position, a cell different from `b"\xff"` contributes
`zone+1 ↦ b2i(cell)/2 - 40.5`; `0xFF` cells are skipped. -/
def zoneTempsOf (cells : List (List Nat)) : List (Nat × ℚ) :=
  (cells.enum.filter (fun p => p.2 != [0xFF])).map
    (fun p => (p.1 + 1, (b2i p.2 : ℚ) / 2 - 40.5))

/-- `B0MessageDecoder.b0_3d_data_decoder` (zone temperatures).  The whole
body sits in a `try/except IndexError` returning `"Invalid Data"`, which
catches the `message.data[0]` of an empty chunk list.  A `bytearray`
payload yields `int` elements whose comparison with `b"\xff"` is always
true; `b2i` then raises an uncaught `TypeError`. -/
def b0_3d_data_decoder (message : B0StructuredResponseMessage) :
    Except String B0ResponseData :=
  match message.data.head? with
  | none => .ok (.invalid "Invalid Data")
  | some chunk =>
    let index := get_lookup_value_IndexName chunk.index
    match chunk.data with
    | .cells ds => .ok (.temps index (zoneTempsOf ds))
    | .bytes [] => .ok (.temps index [])
    | .bytes (_ :: _) => .error "TypeError: cannot convert 'int' object to bytes"

/-- The command ids for which `hasattr(self, f"b0_{command}_data_decoder")`
holds, i.e. the specific-decoder methods defined on `B0MessageDecoder`.
(`command` is always two hex characters, so the `b0_gen_data_decoder`
method itself is never reachable through this dynamic lookup.) -/
def b0_specific_decoder_commands : List String :=
  ["0f", "22", "24", "2a", "35", "36", "3d", "42", "4b", "51", "52", "64", "75", "77"]

/-- The dynamic `getattr(self, f"b0_{command}_data_decoder")` dispatch of
`decode_b0_message`: commands `22` and `3d` run the decoders modelled above,
the other registered commands return an opaque `unmodelled` payload, and
every unregistered command falls back to `b0_gen_data_decoder`. -/
def dispatch_data_decoder (message : B0StructuredResponseMessage) :
    Except String B0ResponseData :=
  if message.command == "22" then b0_22_data_decoder message
  else if message.command == "3d" then b0_3d_data_decoder message
  else if b0_specific_decoder_commands.contains message.command then
    .ok (.unmodelled message.command)
  else b0_gen_data_decoder message

end Visonic

namespace Visonic

/-- The `data` field of a decoded `B0Request`: the structural chunk as-is, a
list of parameter-size hex groups, or one hex string. -/
inductive B0RequestDataOut where
  | chunk (c : B0DataChunk)
  | hexlist (l : List String)
  | hexstr (s : String)
deriving DecidableEq, Repr

/-- The `B0Request` dataclass. -/
structure B0Request where
  type : String
  command : String
  cmd_name : String
  length : Int
  data : B0RequestDataOut
  checksum : String
  verified : Bool
deriving DecidableEq, Repr

/-- The `B0Response` dataclass. -/
structure B0Response where
  type : String
  command : String
  cmd_name : String
  params : String
  page : Nat
  length : Nat
  data : B0ResponseData
  checksum : String
  verified : Bool
deriving DecidableEq, Repr

/-- `B0MessageDecoder.decode_b0_message`, threading the
`PagedMessageManager` state explicitly.  The structural decoder returning
`None` (message-type byte outside 0–5) makes `validate_b0_message(None)`
raise `AttributeError`.  Message types ADD/REQUEST/REMOVE return a
`B0Request` whose data is the chunk itself, parameter-sized hex groups, or a
hex string; PAGED_RESPONSE stores the page (substituting
`highest_seen_page + 1` for a page byte of 255) and returns the raw chunks;
other responses first reassemble any active paged sequence for the command
(then clear the store) and run the dispatched per-command data decoder. -/
def decode_b0_message (pages : PagedState) (msg : List Nat) :
    Except String ((B0Request ⊕ B0Response) × PagedState) :=
  match decode_b0_message_structure msg with
  | none => .error "AttributeError: 'NoneType' object has no attribute 'message_start_marker'"
  | some structured =>
    let verified := validate_b0_message msg
    match structured with
    | .inl message => do
      let dataOut ← (match message.data with
        | .chunk c => .ok (B0RequestDataOut.chunk c)
        | .bytes d =>
          if message.has_params then
            (chunk_bytearray d message.param_size).map
              (fun cs => .hexlist (cs.map bytesHexSp))
          else .ok (.hexstr (bytesHexSp d))
        : Except String B0RequestDataOut)
      .ok (Sum.inl
        { type := MessageType_name message.message_type
          command := message.command
          cmd_name := B0Command_name message.command
          length := message.data_length
          data := dataOut
          checksum := message.checksum
          verified := verified }, pages)
    | .inr message =>
      if message.message_type = 2 then do
        let page_no ← if message.page = 255 then
            (get_highest_page_for_command pages message.command).map (fun n => n + 1)
          else .ok message.page
        let pages' := add_page pages message.command page_no message
        .ok (Sum.inr
          { type := MessageType_name message.message_type
            command := message.command
            cmd_name := B0Command_name message.command
            params := message.params
            page := message.page
            length := message.length_all_data
            data := .raw message.data
            checksum := message.checksum
            verified := verified }, pages')
      else do
        let merged ← (if has_active_paged_response pages message.command then
            (create_message_from_paged_messages message
              (get_pages pages message.command)).map
              (fun m => (m, ([] : PagedState)))
          else .ok (message, pages)
          : Except String (B0StructuredResponseMessage × PagedState))
        let decoded ← dispatch_data_decoder merged.1
        .ok (Sum.inr
          { type := MessageType_name merged.1.message_type
            command := merged.1.command
            cmd_name := B0Command_name merged.1.command
            params := merged.1.params
            page := merged.1.page
            length := merged.1.length_all_data
            data := decoded
            checksum := merged.1.checksum
            verified := verified }, merged.2)

end Visonic

namespace Visonic

/-- `STDMessage` (decoded standard, non-B0, message).  No
`handle_std_{command}_message` method exists on `STDMessageDecoder`, so the
data is always the hex rendering of `msg[2:-2]`. -/
structure STDMessage where
  command : String
  command_str : String
  data : String
  checksum : String
  verified : Bool
deriving DecidableEq, Repr

/-- `helpers.get_lookup_value(StandardCommand, command)`: member name of the
`StandardCommand` string enum, or `"UNKNOWN"`. -/
def StandardCommand_name (command : String) : String :=
  if command == "02" then "ACK"
  else if command == "06" then "HELLO"
  else if command == "08" then "ACCESS_DENIED"
  else if command == "09" then "EPROM_RW_MODE"
  else if command == "0f" then "EXIT_RW_MODE"
  else if command == "a1" then "ARM_ALARM"
  else if command == "a2" then "REQ_STATUS"
  else if command == "a5" then "STATUS_UPDATE"
  else if command == "a6" then "ZONE_TYPE"
  else if command == "ab" then "SET_DATETIME"
  else if command == "3c" then "EPROM_INFO"
  else if command == "3d" then "WRITE_CONFIG"
  else if command == "3e" then "READ_CONFIG"
  else if command == "3f" then "CONFIG_VALUE"
  else "UNKNOWN"

/-- `STDMessageDecoder.decode_standard_message`: command byte at offset 1,
payload `msg[2:-2]`, embedded checksum `msg[-2:-1]`, verified iff the
embedded checksum's hex equals `calculate_message_checksum(msg[1:-2]).hex()`. -/
def decode_standard_message (msg : List Nat) : STDMessage :=
  let command := bytesHex (pySlice msg 1 2)
  { command := command
    command_str := StandardCommand_name command
    data := bytesHexSp (pySlice msg 2 (-2))
    checksum := bytesHex (pySlice msg (-2) (-1))
    verified := bytesHex (pySlice msg (-2) (-1))
      == bytesHex [calculate_message_checksum (pySlice msg 1 (-2))] }

/-- Modelled from the spec: no frame builder exists under `src/` — the spec's
round-trip property names a `frame_with_checksum(b, c)` that the repository
does not define.  Following the frame grammar of spec §6,
`[0x0D][payload][0x43][checksum][0x0A]`, the builder brackets the payload
with the start marker and the end-of-data marker, checksum and end marker. -/
def frame_with_checksum (b : List Nat) (c : Nat) : List Nat :=
  0x0D :: b ++ [0x43, c, 0x0A]

end Visonic

namespace Visonic

/-- A `PAGED_RESPONSE` frame for command `0x1F` whose page byte is `0xFF`
(as that command's firmware always sends): one default-layout chunk
`08 03 01 aa`. -/
def c4_frame : List Nat :=
  [0x0d, 0xb0, 0x02, 0x1f, 0x06, 0xff, 0x08, 0x03, 0x01, 0xaa, 0x43, 0x99, 0x0a]

/-- A final `RESPONSE` frame for command `0x20` (a command with no
`b0_20_data_decoder`) whose single chunk has data type `0x02`, a code
outside the `DataTypes` enum. -/
def c5_frame : List Nat :=
  [0x0d, 0xb0, 0x03, 0x20, 0x06, 0xff, 0x02, 0x15, 0x01, 0xaa, 0x43, 0x99, 0x0a]

/-- Page-1 `PAGED_RESPONSE` frame for command `0x6a` using the
chunk-byte-zero layout (byte 6 is `0x00`), whose chunk therefore carries a
`bytearray` payload and a plain-string hex rendering. -/
def c3_page1_frame : List Nat :=
  [0x0d, 0xb0, 0x02, 0x6a, 0x08, 0x01, 0x00, 0x00, 0x00, 0x00, 0x00, 0x02,
   0x11, 0x22, 0x99, 0x43, 0x77, 0x0a]

/-- Terminal `RESPONSE` frame for command `0x6a`, same zero layout. -/
def c3_final_frame : List Nat :=
  [0x0d, 0xb0, 0x03, 0x6a, 0x08, 0xff, 0x00, 0x00, 0x00, 0x00, 0x00, 0x02,
   0x33, 0x44, 0x9a, 0x43, 0x78, 0x0a]

/-- The spec's example standard frame `0d 02 02 02 43 f9 0a`. -/
def c8_frame : List Nat := [0x0d, 0x02, 0x02, 0x02, 0x43, 0xf9, 0x0a]

/-- Test fixture: a structural response for semantic-decoder claims; only
the `command` and `data` fields are read by the data decoders. -/
def mkResponseMessage (command : String) (chunks : List B0DataChunk) :
    B0StructuredResponseMessage :=
  { message_start_marker := "0d"
    b0_message := true
    message_type := 3
    command := command
    length_all_data := 0
    has_params := false
    params := ""
    page := 255
    data := chunks
    message_counter := 0
    end_data_marker := "43"
    checksum := "00"
    message_end_marker := "0a"
    message := [] }

/-- A capability chunk of 22 two-byte little-endian cells (positions 0–21;
position 21 is beyond the `IndexName` enum). -/
def c6_cells : List (List Nat) :=
  [0x34, 0x12] :: (List.range 21).map (fun i => [i + 1, 0])

/-- The 22-cell capability message (enumeration reaches index 21). -/
def c6_message : B0StructuredResponseMessage :=
  mkResponseMessage "22" [⟨16, 255, 44, .cells c6_cells, .list [], none⟩]

/-- The same message truncated to 21 cells (indices 0–20, all known). -/
def c6_message_21 : B0StructuredResponseMessage :=
  mkResponseMessage "22" [⟨16, 255, 42, .cells (c6_cells.take 21), .list [], none⟩]

/-- C4: the page-`0xFF` substitution is broken after the first page.  The
first `0x1F` frame is stored under effective page number
`highest_seen_page + 1 = 1` (key `"1f_1"`) and decoding succeeds, but the
second identical frame makes `get_highest_page_for_command` evaluate
`int(page_ids[:-1])` — `int()` of a list — so decoding raises `TypeError`
instead of storing the page under 2. -/
theorem c4_page_ff_substitution_bug :
    (decode_b0_message [] c4_frame).toOption.map (fun r => r.2.map Prod.fst)
      = some ["1f_1"]
    ∧ (do
        let r1 ← decode_b0_message [] c4_frame
        decode_b0_message r1.2 c4_frame
        : Except String ((B0Request ⊕ B0Response) × PagedState))
      = .error "TypeError: int() argument must be a string, a bytes-like object or a real number, not 'list'" :=
  ⟨rfl, rfl⟩

/-- C5: the generic fallback decoder is not total.  Command `0x20` has no
specific decoder, so `b0_gen_data_decoder` runs — and its direct
`DataTypes(chunk.data_type)` lookup raises an uncaught `ValueError` for the
chunk's data-type code 2, aborting the decode instead of producing a
Generic-shaped payload with an unknown sentinel. -/
theorem c5_generic_decoder_bug :
    b0_specific_decoder_commands.contains "20" = false
    ∧ decode_b0_message [] c5_frame = .error "ValueError: 2 is not a valid DataTypes" :=
  ⟨rfl, rfl⟩

/-- C6: an index beyond the lookup table aborts the `0x22` capability
decoder.  With 22 entries, position 21 makes `IndexName(21)` raise
`ValueError`, which the `except KeyError` handler does not catch, so no
`Unknown-21` key is produced; with the 21 known positions the decoder keys
each 2-byte little-endian value by the category name
(e.g. `34 12 ↦ REPEATERS ↦ 0x1234`). -/
theorem c6_capability_decoder_bug :
    b0_22_data_decoder c6_message = .error "ValueError: 21 is not a valid IndexName"
    ∧ b0_22_data_decoder c6_message_21 = .ok (.caps
        [("REPEATERS", 0x1234), ("X10", 1), ("SIRENS", 2), ("ZONES", 3),
         ("KEYPADS", 4), ("KEYFOBS", 5), ("USERCODES", 6), ("CAMERASA", 7),
         ("UNK8", 8), ("POWERLINK", 9), ("TAGS", 10), ("CAMERASB", 11),
         ("PANEL", 12), ("UNK13", 13), ("PARTITIONS", 14), ("UNK15", 15),
         ("UNK16", 16), ("EVENTS", 17), ("UKN18", 18), ("UNK19", 19),
         ("UNK20", 20)]) :=
  ⟨rfl, rfl⟩

/-- C8 counterexample: on the spec's example frame `0d 02 02 02 43 f9 0a`
the decoder reports `verified = false` — the embedded checksum byte `f9`
differs from `calculate_message_checksum(msg[1:-2]) = b6` — refuting the
claimed `checksum_ok = true`. -/
theorem c8_counterexample :
    (decode_standard_message c8_frame).verified = false := rfl

/-- C8 (amended): the frame `0d 02 02 02 43 f9 0a` decodes to command
`"02"`, command name `ACK`, payload hex `"02 02 43"`, embedded checksum
`"f9"`, and `checksum_ok = false`. -/
theorem c8_standard_ack_frame :
    decode_standard_message c8_frame
      = ⟨"02", "ACK", "02 02 43", "f9", false⟩ := rfl

end Visonic

namespace Visonic

/-- A slice starting at or beyond the end of the list is empty. -/
theorem pySlice_eq_nil_of_le (l : List α) (a b : Int) (ha : 0 ≤ a)
    (h : (l.length : Int) ≤ a) : pySlice l a b = [] := by
  have hA : sliceIdx l.length a = l.length := by
    unfold sliceIdx
    rw [if_neg (by omega)]
    omega
  unfold pySlice
  rw [hA, List.drop_length, List.take_nil]

/-- C9 counterexample: the empty buffer — far below any minimum header —
still decodes: every slice is empty, `b2i` of an empty slice is 0, the
message type reads as `ADD`, and the structural decoder returns a populated
request structure instead of failing with a `MalformedFrame` error (no such
error exists in the decoder). -/
theorem c9_counterexample :
    (decode_b0_message_structure []).isSome = true := rfl

/-- C9 (amended): for every buffer of fewer than 3 bytes (too short to even
hold the message-type byte) the structural decoder succeeds, reading the
missing offsets as empty slices that decode to zero, rather than failing
with a `MalformedFrame` error. -/
theorem c9_truncated_frames (msg : List Nat) (h : msg.length ≤ 2) :
    (decode_b0_message_structure msg).isSome = true := by
  have h23 : pySlice msg 2 3 = [] :=
    pySlice_eq_nil_of_le msg 2 3 (by omega) (by exact_mod_cast h)
  rw [decode_b0_message_structure]
  simp only [h23]
  norm_num [b2i]
  split <;> simp

/-- C9 witness: the empty buffer instantiates the amended claim. -/
theorem c9_truncated_frames_witness :
    ([] : List Nat).length ≤ 2 ∧ (decode_b0_message_structure []).isSome = true :=
  ⟨by decide, c9_truncated_frames [] (by decide)⟩

/-- C10: for every frame whose message-type byte (offset 2) decodes to a
value outside 0–5, `decode_b0_message_structure` falls through all branches
and produces no structured message, and `decode_b0_message` then raises
(`validate_b0_message(None)` hits a missing attribute) instead of returning
a decoded message. -/
theorem c10_unknown_message_type (pages : PagedState) (msg : List Nat)
    (h : 6 ≤ b2i (pySlice msg 2 3)) :
    decode_b0_message_structure msg = none
    ∧ decode_b0_message pages msg
      = .error "AttributeError: 'NoneType' object has no attribute 'message_start_marker'" := by
  have hs : decode_b0_message_structure msg = none := by
    rw [decode_b0_message_structure]
    simp only []
    rw [if_neg (by omega), if_neg (by omega), if_neg (by omega)]
  exact ⟨hs, by rw [decode_b0_message, hs]⟩

/-- C10 witness: the three-byte buffer `00 00 06` has message type 6. -/
theorem c10_unknown_message_type_witness :
    6 ≤ b2i (pySlice [0, 0, 6] 2 3)
    ∧ decode_b0_message_structure [0, 0, 6] = none
    ∧ decode_b0_message [] [0, 0, 6]
      = .error "AttributeError: 'NoneType' object has no attribute 'message_start_marker'" :=
  ⟨by decide, c10_unknown_message_type [] [0, 0, 6] (by decide)⟩

end Visonic

namespace Visonic

/-- C7: zone-temperature decoding (`b0_3d_data_decoder`).  For a message
with one cell-list chunk, the decoder returns the map built by
`zoneTempsOf`; every cell `[v]` with `v ≠ 0xFF` at 0-based position `i`
contributes `v/2 - 40.5` under the 1-based key `i+1`, and a cell `[0xFF]`
leaves its key absent from the result. -/
theorem c7_zone_temperature (message : B0StructuredResponseMessage)
    (chunk : B0DataChunk) (cells : List (List Nat)) (i v : Nat)
    (hmsg : message.data = [chunk]) (hdata : chunk.data = ChunkData.cells cells) :
    b0_3d_data_decoder message
      = .ok (.temps (get_lookup_value_IndexName chunk.index) (zoneTempsOf cells))
    ∧ (cells[i]? = some [v] → v ≠ 0xFF →
        (i + 1, (v : ℚ) / 2 - 40.5) ∈ zoneTempsOf cells)
    ∧ (cells[i]? = some [0xFF] → ∀ t : ℚ, (i + 1, t) ∉ zoneTempsOf cells) := by
  refine ⟨?_, ?_, ?_⟩
  · rw [b0_3d_data_decoder, hmsg]
    simp [hdata]
  · intro hv hne
    have hmem : (i, [v]) ∈ cells.enum := by
      rw [List.mk_mem_enum_iff_getElem?]
      exact hv
    have hfil : (i, [v]) ∈ cells.enum.filter (fun p => p.2 != [0xFF]) := by
      rw [List.mem_filter]
      exact ⟨hmem, by simpa using hne⟩
    exact List.mem_map.mpr ⟨(i, [v]), hfil, by simp [b2i]⟩
  · intro hff t hmem
    rcases List.mem_map.mp hmem with ⟨p, hp, hfp⟩
    have hi : p.1 = i := by
      have := congrArg Prod.fst hfp
      simpa using this
    rcases List.mem_filter.mp hp with ⟨henum, hq⟩
    have hpe : cells[p.1]? = some p.2 := List.mem_enum_iff_getElem?.mp henum
    rw [hi, hff] at hpe
    have hp2 : p.2 = [0xFF] := by
      injection hpe with h
      exact h.symm
    rw [hp2] at hq
    simp at hq

/-- C7 witness: the spec's example — byte `0x00` at zone index 0 and `0xFF`
at zone index 1 decode to `{1: -40.5}` with zone 2 absent. -/
theorem c7_zone_temperature_witness :
    b0_3d_data_decoder
        (mkResponseMessage "3d" [⟨8, 3, 2, .cells [[0x00], [0xFF]],
          .list ["00", "ff"], none⟩])
      = .ok (.temps "ZONES" (zoneTempsOf [[0x00], [0xFF]]))
    ∧ ((1 : Nat), (-40.5 : ℚ)) ∈ zoneTempsOf [[0x00], [0xFF]]
    ∧ ∀ t : ℚ, ((2 : Nat), t) ∉ zoneTempsOf [[0x00], [0xFF]] := by
  have h := c7_zone_temperature
    (mkResponseMessage "3d" [⟨8, 3, 2, .cells [[0x00], [0xFF]], .list ["00", "ff"], none⟩])
    ⟨8, 3, 2, .cells [[0x00], [0xFF]], .list ["00", "ff"], none⟩
    [[0x00], [0xFF]] 0 0 rfl rfl
  have h2 := c7_zone_temperature
    (mkResponseMessage "3d" [⟨8, 3, 2, .cells [[0x00], [0xFF]], .list ["00", "ff"], none⟩])
    ⟨8, 3, 2, .cells [[0x00], [0xFF]], .list ["00", "ff"], none⟩
    [[0x00], [0xFF]] 1 0 rfl rfl
  refine ⟨h.1, ?_, ?_⟩
  · have hm := h.2.1 (by rfl) (by decide)
    have : ((1 : Nat), (-40.5 : ℚ)) = ((0 + 1 : Nat), ((0 : Nat) : ℚ) / 2 - 40.5) := by
      norm_num
    rw [this]
    exact hm
  · have := h2.2.2 (by rfl)
    simpa using this

end Visonic

namespace Visonic

/-- The checksum value is always a byte. -/
theorem calculate_message_checksum_lt (msg : List Nat) :
    calculate_message_checksum msg < 256 := by
  unfold calculate_message_checksum
  dsimp only
  split <;> omega

/-- `hexChar` is injective on digit values. -/
theorem hexChar_inj_lt : ∀ a < 16, ∀ b < 16, hexChar a = hexChar b → a = b := by
  decide

/-- `hexChar` only reads its argument modulo 16. -/
theorem hexChar_mod (n : Nat) : hexChar (n % 16) = hexChar n := by
  unfold hexChar
  rw [Nat.mod_mod_of_dvd n dvd_rfl]

/-- The two-character hex rendering is injective on bytes. -/
theorem hexDigits_inj (x y : Nat) (hx : x < 256) (hy : y < 256)
    (h : hexDigits x = hexDigits y) : x = y := by
  unfold hexDigits at h
  have h1 : hexChar (x / 16) = hexChar (y / 16) := by injection h
  have h2 : hexChar x = hexChar y := by
    injection h with _ h'
    injection h'
  have e1 : x / 16 = y / 16 :=
    hexChar_inj_lt (x / 16) (by omega) (y / 16) (by omega) h1
  have e2 : x % 16 = y % 16 := by
    apply hexChar_inj_lt (x % 16) (by omega) (y % 16) (by omega)
    rw [hexChar_mod, hexChar_mod]
    exact h2
  omega

/-- Hex renderings of single bytes compare equal exactly on equal bytes. -/
theorem bytesHex_sing_inj (x y : Nat) (hx : x < 256) (hy : y < 256) :
    ((bytesHex [x] == bytesHex [y]) = true) ↔ x = y := by
  rw [beq_iff_eq]
  constructor
  · intro h
    apply hexDigits_inj x y hx hy
    have hd := congrArg String.data h
    simpa [bytesHex] using hd
  · intro h
    rw [h]

set_option maxRecDepth 4096 in
/-- A byte renders as `"0d"` exactly when it is `0x0D`. -/
theorem bytesHex_sing_0d : ∀ x < 256, ((bytesHex [x] == "0d") = true ↔ x = 13) := by
  decide

set_option maxRecDepth 4096 in
/-- A byte renders as `"43"` exactly when it is `0x43`. -/
theorem bytesHex_sing_43 : ∀ x < 256, ((bytesHex [x] == "43") = true ↔ x = 67) := by
  decide

set_option maxRecDepth 4096 in
/-- A byte renders as `"0a"` exactly when it is `0x0A`. -/
theorem bytesHex_sing_0a : ∀ x < 256, ((bytesHex [x] == "0a") = true ↔ x = 10) := by
  decide

/-- A Python slice whose resolved endpoints select one position is the
singleton of the element there. -/
theorem pySlice_singleton (l : List α) (a b : Int) (j : Nat) (hj : j < l.length)
    (ha : sliceIdx l.length a = j) (hb : sliceIdx l.length b = j + 1) :
    pySlice l a b = [l[j]] := by
  unfold pySlice
  rw [ha, hb]
  have h1 : j + 1 - j = 1 := by omega
  rw [h1, List.drop_eq_getElem_cons hj, List.take_succ_cons, List.take_zero]

/-- A negative slice endpoint resolves to `length + i`, clamped at zero. -/
theorem sliceIdx_of_neg (n : Nat) (i : Int) (h : i < 0) :
    sliceIdx n i = ((n : Int) + i).toNat := by
  unfold sliceIdx
  rw [if_pos h]

/-- A nonnegative slice endpoint resolves to `min i n`. -/
theorem sliceIdx_of_nonneg (n : Nat) (i : Int) (h : 0 ≤ i) :
    sliceIdx n i = min i.toNat n := by
  unfold sliceIdx
  rw [if_neg (by omega)]

end Visonic

namespace Visonic

/-- `l[0:-1]` keeps everything but the last element. -/
theorem pySlice_zero_negOne (l : List α) :
    pySlice l 0 (-1) = l.take (l.length - 1) := by
  have hA : sliceIdx l.length 0 = 0 := by
    rw [sliceIdx_of_nonneg _ 0 (by norm_num)]
    omega
  have hB : sliceIdx l.length (-1) = l.length - 1 := by
    rw [sliceIdx_of_neg _ (-1) (by norm_num)]
    omega
  unfold pySlice
  rw [hA, hB, List.drop_zero]
  have he : l.length - 1 - 0 = l.length - 1 := by omega
  rw [he]

/-- `l[1:-1]` drops the first element and keeps `length - 2` elements. -/
theorem pySlice_one_negOne (l : List α) :
    pySlice l 1 (-1) = (l.drop 1).take (l.length - 2) := by
  have hA : sliceIdx l.length 1 = min 1 l.length := by
    rw [sliceIdx_of_nonneg _ 1 (by norm_num)]
    omega
  have hB : sliceIdx l.length (-1) = l.length - 1 := by
    rw [sliceIdx_of_neg _ (-1) (by norm_num)]
    omega
  unfold pySlice
  rw [hA, hB]
  rcases l with _ | ⟨x, xs⟩
  · rfl
  · have h1 : min 1 (x :: xs).length = 1 := by simp
    rw [h1]
    have he : (x :: xs).length - 1 - 1 = (x :: xs).length - 2 := by omega
    rw [he]

/-- `l[1:-2]` drops the first element and keeps `length - 3` elements. -/
theorem pySlice_one_negTwo (l : List α) :
    pySlice l 1 (-2) = (l.drop 1).take (l.length - 3) := by
  have hA : sliceIdx l.length 1 = min 1 l.length := by
    rw [sliceIdx_of_nonneg _ 1 (by norm_num)]
    omega
  have hB : sliceIdx l.length (-2) = l.length - 2 := by
    rw [sliceIdx_of_neg _ (-2) (by norm_num)]
    omega
  unfold pySlice
  rw [hA, hB]
  rcases l with _ | ⟨x, xs⟩
  · rfl
  · have h1 : min 1 (x :: xs).length = 1 := by simp
    rw [h1]
    have he : (x :: xs).length - 2 - 1 = (x :: xs).length - 3 := by omega
    rw [he]

/-- The validator's checksum input `message[:-1]` (with `message = msg[1:-1]`)
is exactly `msg[1:-2]`. -/
theorem pySlice_msg_inner (l : List α) :
    pySlice (pySlice l 1 (-1)) 0 (-1) = pySlice l 1 (-2) := by
  rw [pySlice_one_negOne, pySlice_zero_negOne, pySlice_one_negTwo, List.take_take]
  congr 1
  simp only [List.length_take, List.length_drop]
  omega

end Visonic

namespace Visonic

/-- C1 counterexample: the valid 5-byte frame `0d 02 43 ba 0a` passes
`validate_b0_message` (its checksum `ba` covers `msg[1:-2] = 02 43`), but
the claim's right-hand side is false there: the checksum of the frame minus
only the trailing checksum byte and end marker also covers the leading
`0x0D`, giving `ad ≠ ba`. -/
theorem c1_counterexample :
    validate_b0_message [0x0d, 0x02, 0x43, 0xba, 0x0a] = true
    ∧ c1_claim_rhs [0x0d, 0x02, 0x43, 0xba, 0x0a] = false :=
  ⟨rfl, rfl⟩

/-- C1 (amended): for every byte frame, `validate_b0_message` returns true
iff the start marker is `0x0D`, the end-of-data marker is `0x43`, the end
marker is `0x0A`, and the checksum of the frame minus the *leading start
marker*, the trailing checksum byte and the end marker (i.e. of
`msg[1:-2]`) equals the embedded checksum byte. -/
theorem c1_validate_iff (msg : List Nat) (hB : ∀ x ∈ msg, x < 256) :
    validate_b0_message msg = true ↔ c1_amended_rhs msg := by
  by_cases h4 : 4 ≤ msg.length
  · have s1 : pySlice msg 0 1 = [msg[0]] :=
      pySlice_singleton msg 0 1 0 (by omega)
        (by rw [sliceIdx_of_nonneg _ 0 (by norm_num)]; omega)
        (by rw [sliceIdx_of_nonneg _ 1 (by norm_num)]; omega)
    have s2 : pySlice msg (-3) (-2) = [msg[msg.length - 3]] :=
      pySlice_singleton msg (-3) (-2) (msg.length - 3) (by omega)
        (by rw [sliceIdx_of_neg _ (-3) (by norm_num)]; omega)
        (by rw [sliceIdx_of_neg _ (-2) (by norm_num)]; omega)
    have s3 : pySlice msg (-2) (-1) = [msg[msg.length - 2]] :=
      pySlice_singleton msg (-2) (-1) (msg.length - 2) (by omega)
        (by rw [sliceIdx_of_neg _ (-2) (by norm_num)]; omega)
        (by rw [sliceIdx_of_neg _ (-1) (by norm_num)]; omega)
    have s4 : pySliceFrom msg (-1) = [msg[msg.length - 1]] := by
      unfold pySliceFrom
      rw [sliceIdx_of_neg _ (-1) (by norm_num)]
      have e : ((msg.length : Int) + -1).toNat = msg.length - 1 := by omega
      rw [e, List.drop_eq_getElem_cons (by omega)]
      have e2 : msg.length - 1 + 1 = msg.length := by omega
      rw [e2, List.drop_length]
    simp only [validate_b0_message, c1_amended_rhs, pySlice_msg_inner]
    rw [s1, s2, s3, s4]
    rw [List.getElem?_eq_getElem (show 0 < msg.length by omega),
      List.getElem?_eq_getElem (show msg.length - 3 < msg.length by omega),
      List.getElem?_eq_getElem (show msg.length - 2 < msg.length by omega),
      List.getElem?_eq_getElem (show msg.length - 1 < msg.length by omega)]
    simp only [Bool.and_eq_true, Option.some.injEq]
    rw [bytesHex_sing_0d _ (hB _ (msg.getElem_mem _)),
      bytesHex_sing_43 _ (hB _ (msg.getElem_mem _)),
      bytesHex_sing_0a _ (hB _ (msg.getElem_mem _)),
      bytesHex_sing_inj _ _ (calculate_message_checksum_lt _)
        (hB _ (msg.getElem_mem _))]
    tauto
  · push_neg at h4
    rcases msg with _ | ⟨a, _ | ⟨b, _ | ⟨c, _ | ⟨d, tl⟩⟩⟩⟩
    · constructor
      · intro h
        exact absurd h (by decide)
      · rintro ⟨h1, -, -, -⟩
        simp at h1
    · constructor
      · intro h
        simp only [validate_b0_message] at h
        have e : pySlice [a] (-3) (-2) = ([] : List Nat) := rfl
        rw [e] at h
        simp only [Bool.and_eq_true] at h
        exact absurd h.1.1.2 (by decide)
      · rintro ⟨h1, h2, -, -⟩
        simp at h1 h2
        omega
    · constructor
      · intro h
        simp only [validate_b0_message] at h
        have e : pySlice [a, b] (-3) (-2) = ([] : List Nat) := rfl
        rw [e] at h
        simp only [Bool.and_eq_true] at h
        exact absurd h.1.1.2 (by decide)
      · rintro ⟨h1, h2, -, -⟩
        simp at h1 h2
        omega
    · constructor
      · intro h
        simp only [validate_b0_message] at h
        have e1 : pySlice [a, b, c] 0 1 = [a] := rfl
        have e2 : pySlice [a, b, c] (-3) (-2) = [a] := rfl
        rw [e1, e2] at h
        simp only [Bool.and_eq_true] at h
        have ha : a < 256 := hB a (by simp)
        have v1 := (bytesHex_sing_0d a ha).mp h.1.1.1
        have v2 := (bytesHex_sing_43 a ha).mp h.1.1.2
        omega
      · rintro ⟨h1, h2, -, -⟩
        simp at h1 h2
        omega
    · exfalso
      simp at h4
      omega

end Visonic

namespace Visonic

/-- C1 witness: the valid frame `0d 02 43 ba 0a` instantiates the amended
equivalence. -/
theorem c1_validate_iff_witness :
    (∀ x ∈ [0x0d, 0x02, 0x43, 0xba, 0x0a], x < 256)
    ∧ (validate_b0_message [0x0d, 0x02, 0x43, 0xba, 0x0a] = true
        ↔ c1_amended_rhs [0x0d, 0x02, 0x43, 0xba, 0x0a]) :=
  ⟨by decide, c1_validate_iff [0x0d, 0x02, 0x43, 0xba, 0x0a] (by decide)⟩

/-- C2 counterexample: embedding `checksum(b)` itself (as the claim and the
spec's round-trip property state) does *not* verify — for `b = [0x01]`,
`checksum(b) = 0xFE`, but `verify` recomputes the checksum over
`b ++ [0x43]` (payload plus end-of-data marker), `0xBB`, and returns false. -/
theorem c2_counterexample :
    validate_b0_message
      (frame_with_checksum [0x01] (calculate_message_checksum [0x01])) = false :=
  rfl

/-- C2 (amended): for every byte sequence `b`, the well-formed frame whose
embedded checksum is computed over `b ++ [0x43]` — the bytes `verify`
actually checksums — verifies successfully. -/
theorem c2_round_trip (b : List Nat) :
    validate_b0_message
      (frame_with_checksum b (calculate_message_checksum (b ++ [0x43]))) = true := by
  set cs := calculate_message_checksum (b ++ [0x43]) with hcs
  set F := frame_with_checksum b cs with hF
  have hframe : F = (13 :: b) ++ [67, cs, 10] := by
    simp [hF, frame_with_checksum]
  have hlen : F.length = b.length + 4 := by
    simp [hF, frame_with_checksum]
  have s1 : pySlice F 0 1 = [13] := by
    have hA : sliceIdx F.length 0 = 0 := by
      rw [sliceIdx_of_nonneg _ 0 (by norm_num)]
      omega
    have hB1 : sliceIdx F.length 1 = 1 := by
      rw [sliceIdx_of_nonneg _ 1 (by norm_num), hlen]
      omega
    unfold pySlice
    rw [hA, hB1, List.drop_zero, hframe]
    rfl
  have s2 : pySlice F (-3) (-2) = [67] := by
    have hA : sliceIdx F.length (-3) = b.length + 1 := by
      rw [sliceIdx_of_neg _ (-3) (by norm_num), hlen]
      omega
    have hB2 : sliceIdx F.length (-2) = b.length + 2 := by
      rw [sliceIdx_of_neg _ (-2) (by norm_num), hlen]
      omega
    unfold pySlice
    rw [hA, hB2]
    have h1 : b.length + 2 - (b.length + 1) = 1 := by omega
    rw [h1]
    have hd : F.drop (b.length + 1) = [67, cs, 10] := by
      rw [hframe]
      have e : b.length + 1 = (13 :: b).length := by simp
      rw [e, List.drop_left]
    rw [hd]
    rfl
  have s3 : pySlice F (-2) (-1) = [cs] := by
    have hA : sliceIdx F.length (-2) = b.length + 2 := by
      rw [sliceIdx_of_neg _ (-2) (by norm_num), hlen]
      omega
    have hB2 : sliceIdx F.length (-1) = b.length + 3 := by
      rw [sliceIdx_of_neg _ (-1) (by norm_num), hlen]
      omega
    unfold pySlice
    rw [hA, hB2]
    have h1 : b.length + 3 - (b.length + 2) = 1 := by omega
    rw [h1]
    have hd : F.drop (b.length + 2) = [cs, 10] := by
      have e2 : F = ((13 :: b) ++ [67]) ++ [cs, 10] := by
        rw [hframe]
        simp
      rw [e2]
      have e : b.length + 2 = ((13 :: b) ++ [67]).length := by simp
      rw [e, List.drop_left]
    rw [hd]
    rfl
  have s4 : pySliceFrom F (-1) = [10] := by
    unfold pySliceFrom
    have hA : sliceIdx F.length (-1) = b.length + 3 := by
      rw [sliceIdx_of_neg _ (-1) (by norm_num), hlen]
      omega
    rw [hA]
    have e2 : F = ((13 :: b) ++ [67, cs]) ++ [10] := by
      rw [hframe]
      simp
    rw [e2]
    have e : b.length + 3 = ((13 :: b) ++ [67, cs]).length := by simp
    rw [e, List.drop_left]
  have s5 : pySlice F 1 (-2) = b ++ [67] := by
    rw [pySlice_one_negTwo, hlen]
    have hd : F.drop 1 = b ++ [67, cs, 10] := by
      rw [hframe]
      rfl
    rw [hd]
    have e : b.length + 4 - 3 = b.length + 1 := by omega
    rw [e]
    have e2 : b.length + 1 = b.length + 1 := rfl
    rw [List.take_append 1]
    rfl
  simp only [validate_b0_message, pySlice_msg_inner]
  rw [s1, s2, s3, s4, s5]
  simp only [Bool.and_eq_true]
  refine ⟨⟨⟨by decide, by decide⟩, ?_⟩, by decide⟩
  rw [beq_iff_eq]

end Visonic

namespace Visonic

/-- A chunk in the shape produced by the multi-chunk response layouts:
cell-list payload and list hex rendering (every layout except the
chunk-byte-zero one). -/
def listShaped (c : B0DataChunk) : Bool :=
  match c.data, c.hex with
  | .cells _, .list _ => true
  | _, _ => false

/-- The cell payload of a list-shaped chunk. -/
def cellsOf (c : B0DataChunk) : List (List Nat) :=
  match c.data with
  | .cells x => x
  | .bytes _ => []

/-- The hex list of a list-shaped chunk. -/
def hexListOf (c : B0DataChunk) : List String :=
  match c.hex with
  | .list x => x
  | .str _ => []

/-- The distinct chunk indices of a chunk list, in order of first
appearance. -/
def chunkIndices (l : List B0DataChunk) : List Nat :=
  l.foldl (fun acc c => if acc.contains c.index then acc else acc ++ [c.index]) []

/-- The merged chunk the claim describes for index `i`: the first chunk with
that index, its payload and hex extended by every later same-index chunk in
page order and its length the sum of their lengths. -/
def mergedChunkAt (l : List B0DataChunk) (i : Nat) : B0DataChunk :=
  let ms := l.filter (fun c => c.index == i)
  match ms.head? with
  | none => ⟨0, i, 0, .cells [], .list [], none⟩
  | some c =>
    { c with
      length := (ms.map B0DataChunk.length).sum
      data := .cells ((ms.map cellsOf).flatten)
      hex := .list ((ms.map hexListOf).flatten) }

/-- The claim's reassembly result: one merged chunk per index, indices in
order of first appearance across the pages in page order. -/
def spec_merged_chunks (pages : List (List B0DataChunk)) : List B0DataChunk :=
  (chunkIndices pages.flatten).map (mergedChunkAt pages.flatten)

/-- C3 counterexample: a two-page response in the chunk-byte-zero layout
(string hex renderings).  Reassembling the split pages does not equal the
single-frame decode of the whole content: merging reaches
`hex.extend` on a `str` and raises `AttributeError`, so the paged side has
no value at all, while the unsplit single frame decodes fine.  Concretely:
decoding `c3_page1_frame` succeeds and stores page 1, and then decoding
`c3_final_frame` raises. -/
theorem c3_counterexample :
    (do
      let r1 ← decode_b0_message [] c3_page1_frame
      decode_b0_message r1.2 c3_final_frame
      : Except String ((B0Request ⊕ B0Response) × PagedState))
      = .error "AttributeError: 'str' object has no attribute 'extend'"
    ∧ (decode_b0_message [] c3_final_frame).toOption.isSome = true :=
  ⟨rfl, rfl⟩

end Visonic

namespace Visonic

/-- Membership in the index-accumulation fold. -/
theorem mem_foldl_indices (l : List B0DataChunk) :
    ∀ (acc : List Nat) (i : Nat),
      i ∈ l.foldl
        (fun acc c => if acc.contains c.index then acc else acc ++ [c.index]) acc
        ↔ i ∈ acc ∨ ∃ c ∈ l, c.index = i := by
  induction l with
  | nil =>
    intro acc i
    simp
  | cons d ds ih =>
    intro acc i
    simp only [List.foldl_cons]
    by_cases hd : acc.contains d.index
    · rw [if_pos hd, ih]
      have hmem : d.index ∈ acc := by
        simp [List.contains] at hd
        exact hd
      constructor
      · rintro (h | ⟨c, hc, hci⟩)
        · exact Or.inl h
        · exact Or.inr ⟨c, List.mem_cons_of_mem _ hc, hci⟩
      · rintro (h | ⟨c, hc, hci⟩)
        · exact Or.inl h
        · rcases List.mem_cons.mp hc with rfl | hc'
          · exact Or.inl (hci ▸ hmem)
          · exact Or.inr ⟨c, hc', hci⟩
    · rw [if_neg hd, ih]
      constructor
      · rintro (h | ⟨c, hc, hci⟩)
        · rcases List.mem_append.mp h with h' | h'
          · exact Or.inl h'
          · simp only [List.mem_singleton] at h'
            exact Or.inr ⟨d, List.mem_cons_self d ds, h'.symm⟩
        · exact Or.inr ⟨c, List.mem_cons_of_mem _ hc, hci⟩
      · rintro (h | ⟨c, hc, hci⟩)
        · exact Or.inl (List.mem_append.mpr (Or.inl h))
        · rcases List.mem_cons.mp hc with rfl | hc'
          · exact Or.inl (List.mem_append.mpr (Or.inr (by simp [hci])))
          · exact Or.inr ⟨c, hc', hci⟩

/-- An index appears in `chunkIndices l` exactly when some chunk of `l`
carries it. -/
theorem mem_chunkIndices (l : List B0DataChunk) (i : Nat) :
    i ∈ chunkIndices l ↔ ∃ c ∈ l, c.index = i := by
  unfold chunkIndices
  rw [mem_foldl_indices]
  simp

/-- The index-accumulation fold preserves `Nodup`. -/
theorem nodup_foldl_indices (l : List B0DataChunk) :
    ∀ acc : List Nat, acc.Nodup →
      (l.foldl
        (fun acc c => if acc.contains c.index then acc else acc ++ [c.index]) acc).Nodup := by
  induction l with
  | nil =>
    intro acc hacc
    simpa using hacc
  | cons d ds ih =>
    intro acc hacc
    simp only [List.foldl_cons]
    by_cases hd : acc.contains d.index
    · rw [if_pos hd]
      exact ih acc hacc
    · rw [if_neg hd]
      apply ih
      refine List.Nodup.append hacc (List.nodup_singleton _) ?_
      intro x hx hx'
      simp only [List.mem_singleton] at hx'
      subst hx'
      refine hd ?_
      simp [List.contains]
      exact hx

/-- `chunkIndices` has no duplicates. -/
theorem chunkIndices_nodup (l : List B0DataChunk) : (chunkIndices l).Nodup :=
  nodup_foldl_indices l [] List.nodup_nil

/-- Appending one chunk extends the index list only when its index is new. -/
theorem chunkIndices_append (l : List B0DataChunk) (c : B0DataChunk) :
    chunkIndices (l ++ [c]) =
      if (chunkIndices l).contains c.index then chunkIndices l
      else chunkIndices l ++ [c.index] := by
  unfold chunkIndices
  rw [List.foldl_append]
  rfl

end Visonic

namespace Visonic

/-- An index recorded in `chunkIndices` has a matching chunk, so the filter
in `mergedChunkAt` is non-empty. -/
theorem filter_index_ne_nil (l : List B0DataChunk) (i : Nat)
    (h : i ∈ chunkIndices l) :
    l.filter (fun c => c.index == i) ≠ [] := by
  rcases (mem_chunkIndices l i).mp h with ⟨c, hc, hci⟩
  intro hnil
  rw [List.filter_eq_nil_iff] at hnil
  exact hnil c hc (by simp [hci])

/-- The merged chunk for a recorded index carries that index. -/
theorem mergedChunkAt_index (l : List B0DataChunk) (i : Nat)
    (h : i ∈ chunkIndices l) :
    (mergedChunkAt l i).index = i := by
  rcases hms : l.filter (fun c => c.index == i) with _ | ⟨c0, rest⟩
  · exact absurd hms (filter_index_ne_nil l i h)
  · have hc0 : c0 ∈ l.filter (fun c => c.index == i) := by
      rw [hms]
      exact List.mem_cons_self c0 rest
    have hidx : c0.index = i := by
      have := (List.mem_filter.mp hc0).2
      simpa using this
    simp only [mergedChunkAt, hms, List.head?_cons]
    exact hidx

/-- A chunk with a different index leaves the merged chunk unchanged. -/
theorem mergedChunkAt_append_ne (l : List B0DataChunk) (c : B0DataChunk)
    (i : Nat) (hne : i ≠ c.index) :
    mergedChunkAt (l ++ [c]) i = mergedChunkAt l i := by
  have hfil : (l ++ [c]).filter (fun x => x.index == i)
      = l.filter (fun x => x.index == i) := by
    rw [List.filter_append]
    have hc : ((c.index == i) : Bool) = false := by
      simp
      omega
    simp [List.filter_cons, hc]
  simp only [mergedChunkAt, hfil]

/-- Merging a fresh list-shaped chunk into pages that never used its index
yields the chunk itself. -/
theorem mergedChunkAt_append_fresh (l : List B0DataChunk) (c : B0DataChunk)
    (hshape : listShaped c = true) (hnot : ∀ d ∈ l, d.index ≠ c.index) :
    mergedChunkAt (l ++ [c]) c.index = c := by
  have h1 : l.filter (fun x => x.index == c.index) = [] :=
    List.filter_eq_nil_iff.mpr (fun d hd => by simp [hnot d hd])
  have h2 : (l ++ [c]).filter (fun x => x.index == c.index) = [c] := by
    rw [List.filter_append, h1, List.nil_append]
    simp
  simp only [mergedChunkAt, h2, List.head?_cons]
  rcases c with ⟨dt, idx, len, data, hex, s42⟩
  rcases data with b | cells
  · simp [listShaped] at hshape
  rcases hex with s | hl
  · simp [listShaped] at hshape
  simp [cellsOf, hexListOf]

/-- Extending the merged chunk by one more same-index, list-shaped chunk is
exactly the merged chunk over the longer page list. -/
theorem mergedChunkAt_append_extend (l : List B0DataChunk) (c : B0DataChunk)
    (hshape : listShaped c = true) (h : c.index ∈ chunkIndices l) :
    extendChunk (mergedChunkAt l c.index) c
      = .ok (mergedChunkAt (l ++ [c]) c.index) := by
  rcases hms : l.filter (fun x => x.index == c.index) with _ | ⟨c0, rest⟩
  · exact absurd hms (filter_index_ne_nil l c.index h)
  · have h2 : (l ++ [c]).filter (fun x => x.index == c.index)
        = (c0 :: rest) ++ [c] := by
      rw [List.filter_append, hms]
      simp
    simp only [mergedChunkAt, hms, h2, List.cons_append, List.head?_cons]
    rcases c with ⟨dt, idx, len, data, hex, s42⟩
    rcases data with b | cells
    · simp [listShaped] at hshape
    rcases hex with s | hl
    · simp [listShaped] at hshape
    simp [extendChunk, extendChunkData, extendChunkHex, cellsOf, hexListOf,
      List.sum_append, List.flatten_append, Bind.bind, Except.bind, add_assoc]

end Visonic

namespace Visonic

/-- When every matching extension succeeds pointwise, the matching walk
returns the pointwise-updated list. -/
theorem extend_matching_ok (L : List B0DataChunk) (c : B0DataChunk)
    (g : B0DataChunk → B0DataChunk)
    (hg : ∀ e ∈ L, if e.index == c.index then extendChunk e c = .ok (g e)
        else g e = e) :
    extend_matching L c = .ok (L.map g) := by
  induction L with
  | nil => rfl
  | cons e rest ih =>
    have he := hg e (List.mem_cons_self e rest)
    have ihr := ih (fun e' he' => hg e' (List.mem_cons_of_mem _ he'))
    simp only [extend_matching]
    by_cases hidx : (e.index == c.index) = true
    · rw [if_pos hidx]
      rw [if_pos hidx] at he
      rw [he, ihr]
      simp [Bind.bind, Except.bind]
    · rw [if_neg hidx]
      rw [if_neg hidx] at he
      rw [ihr]
      simp [Bind.bind, Except.bind, he]

/-- The nested fold of `rebuild_paged_data_chunks` equals one fold over the
concatenation of all pages' chunks. -/
theorem foldlM_flatten (pages : List (List B0DataChunk)) :
    ∀ init : List B0DataChunk,
      pages.foldlM (fun acc m => m.foldlM rebuild_step acc) init
        = pages.flatten.foldlM rebuild_step init := by
  induction pages with
  | nil =>
    intro init
    rfl
  | cons m ps ih =>
    intro init
    rw [List.flatten_cons, List.foldlM_append, List.foldlM_cons]
    rcases hm : m.foldlM rebuild_step init with e | acc
    · simp [Bind.bind, Except.bind]
    · simp only [Bind.bind, Except.bind]
      exact ih acc

/-- `rebuild_paged_data_chunks` over the flattened chunk list. -/
theorem rebuild_eq_flatten (pages : List (List B0DataChunk)) :
    rebuild_paged_data_chunks pages = pages.flatten.foldlM rebuild_step [] :=
  foldlM_flatten pages []

/-- Reassembly computes exactly the claim's merge: one chunk per index in
first-appearance order, payload cells, hex entries and lengths accumulated
in page order. -/
theorem rebuild_flat_spec (L : List B0DataChunk)
    (h : ∀ c ∈ L, listShaped c = true) :
    L.foldlM rebuild_step [] = .ok ((chunkIndices L).map (mergedChunkAt L)) := by
  induction L using List.reverseRecOn with
  | nil => rfl
  | append_singleton l c ih =>
    have hl : ∀ x ∈ l, listShaped x = true :=
      fun x hx => h x (List.mem_append.mpr (Or.inl hx))
    have hc : listShaped c = true :=
      h c (List.mem_append.mpr (Or.inr (List.mem_singleton.mpr rfl)))
    have hstep : rebuild_step ((chunkIndices l).map (mergedChunkAt l)) c
        = .ok ((chunkIndices (l ++ [c])).map (mergedChunkAt (l ++ [c]))) := by
      by_cases hcont : c.index ∈ chunkIndices l
      · have hany : ((chunkIndices l).map (mergedChunkAt l)).any
            (fun e => e.index == c.index) = true := by
          rw [List.any_eq_true]
          refine ⟨mergedChunkAt l c.index, List.mem_map.mpr ⟨c.index, hcont, rfl⟩, ?_⟩
          rw [mergedChunkAt_index l c.index hcont]
          simp
        simp only [rebuild_step]
        rw [if_pos hany]
        rw [extend_matching_ok _ c
          (fun e => if e.index == c.index then mergedChunkAt (l ++ [c]) c.index else e)
          ?hg]
        case hg =>
          intro e he
          rcases List.mem_map.mp he with ⟨i, hi, rfl⟩
          have hidx : (mergedChunkAt l i).index = i := mergedChunkAt_index l i hi
          by_cases hieq : i = c.index
          · have hbeq : ((mergedChunkAt l i).index == c.index) = true := by
              rw [hidx, hieq]
              simp
            rw [if_pos hbeq]
            show extendChunk (mergedChunkAt l i) c
                = .ok (if (mergedChunkAt l i).index == c.index
                    then mergedChunkAt (l ++ [c]) c.index else mergedChunkAt l i)
            rw [if_pos hbeq, hieq]
            exact mergedChunkAt_append_extend l c hc (hieq ▸ hi)
          · have hbeq : ((mergedChunkAt l i).index == c.index) = false := by
              rw [hidx]
              simp
              omega
            rw [if_neg (by simp [hbeq])]
            show (if (mergedChunkAt l i).index == c.index
                then mergedChunkAt (l ++ [c]) c.index else mergedChunkAt l i)
                = mergedChunkAt l i
            rw [if_neg (by simp [hbeq])]
        congr 1
        rw [chunkIndices_append, if_pos (by simp [List.contains]; exact hcont),
          List.map_map]
        apply List.map_congr_left
        intro i hi
        simp only [Function.comp_apply]
        have hidx : (mergedChunkAt l i).index = i := mergedChunkAt_index l i hi
        by_cases hieq : i = c.index
        · rw [if_pos (by rw [hidx, hieq]; simp), hieq]
        · rw [if_neg (by rw [hidx]; simp; omega),
            mergedChunkAt_append_ne l c i hieq]
      · have hany : ((chunkIndices l).map (mergedChunkAt l)).any
            (fun e => e.index == c.index) = false := by
          rw [List.any_eq_false]
          intro e he
          rcases List.mem_map.mp he with ⟨i, hi, rfl⟩
          rw [mergedChunkAt_index l i hi]
          simp
          intro heq
          exact hcont (heq ▸ hi)
        simp only [rebuild_step]
        rw [if_neg (by simp [hany])]
        have hnot : ∀ d ∈ l, d.index ≠ c.index := by
          intro d hd heq
          exact hcont ((mem_chunkIndices l c.index).mpr ⟨d, hd, heq⟩)
        congr 1
        rw [chunkIndices_append, if_neg (by simp [List.contains]; exact hcont),
          List.map_append]
        congr 1
        · apply List.map_congr_left
          intro i hi
          have hieq : i ≠ c.index := fun heq => hcont (heq ▸ hi)
          rw [mergedChunkAt_append_ne l c i hieq]
        · simp only [List.map_cons, List.map_nil]
          rw [mergedChunkAt_append_fresh l c hc hnot]
    rw [List.foldlM_append, ih hl]
    simp [List.foldlM_cons, List.foldlM_nil, hstep, Bind.bind, Except.bind,
      pure, Except.pure]
end Visonic

namespace Visonic

/-- Folding chunks with pairwise-distinct indices over an accumulator free
of those indices just appends them (no merge fires). -/
theorem rebuild_distinct (S : List B0DataChunk) :
    ∀ acc : List B0DataChunk,
      (∀ s ∈ S, ∀ a ∈ acc, a.index ≠ s.index) →
      S.Pairwise (fun a b => a.index ≠ b.index) →
      S.foldlM rebuild_step acc = .ok (acc ++ S) := by
  induction S with
  | nil =>
    intro acc _ _
    simp [List.foldlM_nil, pure, Except.pure]
  | cons s ss ih =>
    intro acc h1 h2
    have hany : acc.any (fun e => e.index == s.index) = false := by
      rw [List.any_eq_false]
      intro a ha
      simp
      exact h1 s (List.mem_cons_self s ss) a ha
    have hstep : rebuild_step acc s = .ok (acc ++ [s]) := by
      simp only [rebuild_step]
      rw [if_neg (by simp [hany])]
    have h1' : ∀ t ∈ ss, ∀ a ∈ acc ++ [s], a.index ≠ t.index := by
      intro t ht a ha
      rcases List.mem_append.mp ha with ha' | ha'
      · exact h1 t (List.mem_cons_of_mem _ ht) a ha'
      · rw [List.mem_singleton.mp ha']
        exact (List.rel_of_pairwise_cons h2) ht
    have h2' : ss.Pairwise (fun a b => a.index ≠ b.index) := h2.of_cons
    have ihr := ih (acc ++ [s]) h1' h2'
    simp [List.foldlM_cons, hstep, Bind.bind, Except.bind, ihr]

/-- The merged chunk list has pairwise-distinct indices. -/
theorem spec_merged_pairwise (l : List B0DataChunk) :
    ((chunkIndices l).map (mergedChunkAt l)).Pairwise
      (fun a b => a.index ≠ b.index) := by
  rw [List.pairwise_map]
  refine List.Pairwise.imp_of_mem ?_ (chunkIndices_nodup l)
  intro i j hi hj hne
  rw [mergedChunkAt_index l i hi, mergedChunkAt_index l j hj]
  exact hne

/-- A single message carrying chunks with pairwise-distinct indices passes
through reassembly unchanged. -/
theorem rebuild_single (S : List B0DataChunk)
    (hpair : S.Pairwise (fun a b => a.index ≠ b.index)) :
    rebuild_paged_data_chunks [S] = .ok S := by
  unfold rebuild_paged_data_chunks
  have hd := rebuild_distinct S [] (by simp) hpair
  simp [List.foldlM_cons, List.foldlM_nil, hd, Bind.bind, Except.bind,
    pure, Except.pure]

/-- C3 (amended): the reassembly merge law, for pages whose chunks carry
list-shaped payloads and hex renderings (every response layout except the
chunk-byte-zero one, whose string hex makes the merge raise — see the
counterexample).  Reassembling the pages equals the claim's merge — chunks
sharing an index concatenated in page order with payloads extended and
lengths summed, unique indices passing through unchanged — and the merged
chunk list, presented as a single frame containing the whole logical
content, reassembles to itself. -/
theorem c3_merge_law (pages : List (List B0DataChunk))
    (h : ∀ m ∈ pages, ∀ c ∈ m, listShaped c = true) :
    rebuild_paged_data_chunks pages = .ok (spec_merged_chunks pages)
    ∧ rebuild_paged_data_chunks [spec_merged_chunks pages]
        = .ok (spec_merged_chunks pages) := by
  have hflat : ∀ c ∈ pages.flatten, listShaped c = true := by
    intro c hc
    rcases List.mem_flatten.mp hc with ⟨m, hm, hcm⟩
    exact h m hm c hcm
  constructor
  · rw [rebuild_eq_flatten]
    exact rebuild_flat_spec pages.flatten hflat
  · exact rebuild_single _ (spec_merged_pairwise _)

/-- C3 witness: two pages for indexes 3 (split across both pages) and 5
(unique), merged into a single chunk per index with concatenated cells and
summed lengths; the merged single frame reassembles to itself. -/
theorem c3_merge_law_witness :
    (∀ m ∈ [[(⟨8, 3, 2, .cells [[1], [2]], .list ["01", "02"], none⟩ : B0DataChunk)],
        [⟨8, 3, 1, .cells [[7]], .list ["07"], none⟩,
         ⟨8, 5, 1, .cells [[9]], .list ["09"], none⟩]],
      ∀ c ∈ m, listShaped c = true)
    ∧ rebuild_paged_data_chunks
        [[⟨8, 3, 2, .cells [[1], [2]], .list ["01", "02"], none⟩],
         [⟨8, 3, 1, .cells [[7]], .list ["07"], none⟩,
          ⟨8, 5, 1, .cells [[9]], .list ["09"], none⟩]]
      = .ok (spec_merged_chunks
        [[⟨8, 3, 2, .cells [[1], [2]], .list ["01", "02"], none⟩],
         [⟨8, 3, 1, .cells [[7]], .list ["07"], none⟩,
          ⟨8, 5, 1, .cells [[9]], .list ["09"], none⟩]]) :=
  ⟨by decide,
   (c3_merge_law
     [[⟨8, 3, 2, .cells [[1], [2]], .list ["01", "02"], none⟩],
      [⟨8, 3, 1, .cells [[7]], .list ["07"], none⟩,
       ⟨8, 5, 1, .cells [[9]], .list ["09"], none⟩]] (by decide)).1⟩

end Visonic
